import Mathlib

/-!
# Verification of the weather-aware routing and driver-simulation core

A shallow embedding of the two core subsystems of the fleet-dispatch demo:

* the weather-aware route selection engine of `src/backend/dist/server.js`
  (`applyWeatherPenalties`, the candidate fold of `getBestWeatherAwareRoute`),
  modelled over `ℚ` so that every arithmetic step of the penalty formula is
  exact and executable;
* the driver-progress state machine and kinematic interpolator of
  `src/web-ui/logistics-dashboard/src/App.tsx` (`updateDriverPositions`,
  `moveTowardsTarget`, `calculateDistance`, `calculateBearing`,
  `recalculateRoutesForActiveDrivers`, `toggleWeatherEvent`), modelled over
  `ℝ` since the distance math is trigonometric.

External I/O (the GraphHopper HTTP queries, the SQLite reads, the React
`setState` plumbing) is represented by explicit parameters: the outcome of
each routing query is passed in as a value, and the asynchronous state
updates of the frontend are collapsed to their synchronous effect on the
driver record.
-/

namespace Backend

/-- JavaScript `Math.round` on the nonnegative rational values this code
produces: round half away from zero is round half up here. -/
def jsRound (x : ℚ) : ℤ := ⌊x + 1/2⌋

/-- A row of the `weather_events` table: an event type string, a circular
zone (center latitude/longitude, radius in km) and the `active` flag. -/
structure WeatherEvent where
  id : String
  type : String
  latitude : ℚ
  longitude : ℚ
  radius : ℚ
  active : Bool
deriving Repr, DecidableEq

/-- A route coordinate, `(lat, lon)`, as handled by the backend sampling
loop.  The penalty arithmetic never computes with the coordinates (only the
point-in-zone test does, and that test enters the model as a parameter), so
rationals suffice. -/
abbrev Coord := ℚ × ℚ

/-- `toLowerCase()`, modelled as per-character lowercasing of the string's
character list. -/
def lowerString (s : String) : String := String.mk (s.data.map Char.toLower)

/-- The `switch (event.type.toLowerCase())` of `applyWeatherPenalties`:
per-hit base penalty by event type. -/
def basePenalty (ty : String) : ℚ :=
  if lowerString ty = "storm" ∨ lowerString ty = "heavy_rain" ∨
      lowerString ty = "hurricane" then 100
  else if lowerString ty = "traffic" ∨ lowerString ty = "accident" ∨
      lowerString ty = "construction" then 50
  else if lowerString ty = "light_rain" ∨ lowerString ty = "fog" then 20
  else 30

/-- One original point followed by the nine intermediate points that the
upsampling loop pushes for the segment from `p` to `q`
(`ratio = j / 10` for `j = 1 .. 9`). -/
def segmentSamples (p q : Coord) : List Coord :=
  p :: (List.range 9).map (fun j =>
    let ratio : ℚ := (j + 1 : ℕ) / 10
    (p.1 + (q.1 - p.1) * ratio, p.2 + (q.2 - p.2) * ratio))

/-- The upsampling loop body (`for i in 0 .. length-2`), without the final
push of the last point. -/
def sampleSegments : List Coord → List Coord
  | p :: q :: rest => segmentSamples p q ++ sampleSegments (q :: rest)
  | _ => []

/-- Route sampling in `applyWeatherPenalties`: a geometry with fewer than 10
points is upsampled with 10 sub-points per segment plus the final point;
otherwise it is used as is.  (On an empty geometry the JavaScript loop body
indexes past the array and the surrounding `catch` returns the route
unchanged; an empty sample list gives the same unchanged result here.) -/
def sampleRoute (coords : List Coord) : List Coord :=
  if coords.length < 10 then
    match coords.getLast? with
    | some last => sampleSegments coords ++ [last]
    | none => []
  else coords

/-- The inner loop of the scoring pass: fold one route point over every
active weather event, accumulating `(totalPenalty, affectedPoints)`.
`hit` is `isPointInWeatherEvent` (haversine distance to the event center
`≤ radius`), passed in as a parameter. -/
def scorePoint (hit : Coord → WeatherEvent → Bool) (events : List WeatherEvent)
    (acc : ℚ × ℕ) (p : Coord) : ℚ × ℕ :=
  events.foldl
    (fun a e => if hit p e then (a.1 + basePenalty e.type, a.2 + 1) else a) acc

/-- The double loop of `applyWeatherPenalties`: every sampled route point is
checked against every active weather event; each (point, event) hit adds the
event's base penalty and increments the affected-point count. -/
def scorePass (hit : Coord → WeatherEvent → Bool) (coords : List Coord)
    (events : List WeatherEvent) : ℚ × ℕ :=
  coords.foldl (scorePoint hit events) (0, 0)

/-- The `weather_penalties` object attached to a penalized path. -/
structure PenaltyReport where
  total_penalty : ℚ
  affected_points : ℕ
  total_route_points : ℕ
  penalty_multiplier : ℚ
  severity_multiplier : ℚ
deriving Repr, DecidableEq

/-- One GraphHopper path: travel time (ms), distance (m), the normalized
route geometry (the decoded polyline, or the input points when decoding is
unavailable), and the optional penalty report. -/
structure Path where
  time : ℚ
  distance : ℚ
  coords : List Coord
  weather_penalties : Option PenaltyReport := none
deriving Repr, DecidableEq

/-- A route response: a (possibly empty) list of paths; only `paths[0]` is
scored and consulted by selection. -/
structure RouteData where
  paths : List Path
deriving Repr, DecidableEq

/-- `applyWeatherPenalties`: scores `paths[0]` of a route against the active
weather events and, if any sampled point is affected, scales its time and
distance and attaches the penalty report.  With no active events or no path
the route is returned unchanged. -/
def applyWeatherPenalties (hit : Coord → WeatherEvent → Bool)
    (events : List WeatherEvent) (routeData : RouteData) : RouteData :=
  let weatherEvents := events.filter (·.active)
  match routeData.paths with
  | [] => routeData
  | path :: rest =>
    if weatherEvents.isEmpty then routeData
    else
      let routeCoordinates := sampleRoute path.coords
      let scored := scorePass hit routeCoordinates weatherEvents
      let totalPenalty := scored.1
      let affectedPoints := scored.2
      if totalPenalty > 0 ∧ affectedPoints > 0 then
        let severityMultiplier := min (1 + (affectedPoints : ℚ) * (1/2)) 10
        let finalPenalty := totalPenalty * severityMultiplier
        let penaltyMultiplier := 1 + finalPenalty * (1/10)
        { routeData with paths :=
          { path with
            time := (jsRound (path.time * penaltyMultiplier) : ℚ),
            distance := (jsRound (path.distance * (1 + finalPenalty * (1/50))) : ℚ),
            weather_penalties := some
              { total_penalty := finalPenalty,
                affected_points := affectedPoints,
                total_route_points := routeCoordinates.length,
                penalty_multiplier := penaltyMultiplier,
                severity_multiplier := severityMultiplier } } :: rest }
      else routeData

/-- `best.paths?.[0]?.weather_penalties?.total_penalty || 0`: the penalty a
candidate contributes to selection; a missing path or missing report reads
as `0`. -/
def effPenalty (r : RouteData) : ℚ :=
  match r.paths.head? with
  | some p =>
    match p.weather_penalties with
    | some w => w.total_penalty
    | none => 0
  | none => 0

/-- `paths?.[0]?.time || Infinity`: the time a candidate contributes to the
zero-penalty tie-break; `none` stands for `Infinity` (a missing path, and
also a literal `0` time, which is falsy in JavaScript). -/
def effTime (r : RouteData) : Option ℚ :=
  match r.paths.head? with
  | some p => if p.time = 0 then none else some p.time
  | none => none

/-- The JavaScript `<` on effective times, `none` standing for `Infinity`
(`Infinity < Infinity` is `false`). -/
def timeLt (a b : Option ℚ) : Bool :=
  match a, b with
  | some x, some y => decide (x < y)
  | some _, none => true
  | none, _ => false

/-- The body of the `routeOptions.reduce` in `getBestWeatherAwareRoute`:
if both candidates read penalty 0, keep the one with the smaller effective
time, otherwise keep `best` exactly when its penalty is `≤`. -/
def bestStep (best current : RouteData) : RouteData :=
  if effPenalty best = 0 ∧ effPenalty current = 0 then
    if timeLt (effTime best) (effTime current) then best else current
  else if effPenalty best ≤ effPenalty current then best else current

/-- `routeOptions.reduce(bestStep)` on the non-empty candidate list
`c :: cs`. -/
def selectBest (c : RouteData) (cs : List RouteData) : RouteData :=
  cs.foldl bestStep c

/-- The driver of `getBestWeatherAwareRoute` after its strategy phase: each
attempted strategy query's outcome is a parameter (`none` = the query threw
and was skipped by its `catch`); every successful result is scored and
collected, and if none succeeded the single fallback query's result is
returned — after `applyWeatherPenalties` — otherwise the reduce selects the
best candidate. -/
def getBestWeatherAwareRoute (hit : Coord → WeatherEvent → Bool)
    (events : List WeatherEvent) (strategyResults : List (Option RouteData))
    (fallbackRoute : RouteData) : RouteData :=
  let routeOptions :=
    strategyResults.filterMap (fun o => o.map (applyWeatherPenalties hit events))
  match routeOptions with
  | [] => applyWeatherPenalties hit events fallbackRoute
  | c :: cs => selectBest c cs

/-! ### Selection lemmas -/

theorem effPenalty_bestStep (b c : RouteData) :
    effPenalty (bestStep b c) = min (effPenalty b) (effPenalty c) := by
  unfold bestStep
  split_ifs with h h1 h2
  · simp [h.1, h.2]
  · simp [h.1, h.2]
  · exact (min_eq_left h2).symm
  · exact (min_eq_right (le_of_lt (lt_of_not_le h2))).symm

theorem selectBest_le_head (cs : List RouteData) (c : RouteData) :
    effPenalty (selectBest c cs) ≤ effPenalty c := by
  induction cs generalizing c with
  | nil => exact le_refl _
  | cons cur rest ih =>
    calc effPenalty (selectBest (bestStep c cur) rest)
        ≤ effPenalty (bestStep c cur) := ih _
      _ ≤ effPenalty c := by rw [effPenalty_bestStep]; exact min_le_left _ _

theorem selectBest_le_mem (cs : List RouteData) (c : RouteData) :
    ∀ r ∈ cs, effPenalty (selectBest c cs) ≤ effPenalty r := by
  induction cs generalizing c with
  | nil => intro r hr; cases hr
  | cons cur rest ih =>
    intro r hr
    rcases List.mem_cons.mp hr with h | h
    · subst h
      calc effPenalty (selectBest (bestStep c r) rest)
          ≤ effPenalty (bestStep c r) := selectBest_le_head _ _
        _ ≤ effPenalty r := by rw [effPenalty_bestStep]; exact min_le_right _ _
    · exact ih _ r h

theorem selectBest_nonneg (cs : List RouteData) (c : RouteData)
    (h : ∀ r ∈ c :: cs, 0 ≤ effPenalty r) :
    0 ≤ effPenalty (selectBest c cs) := by
  induction cs generalizing c with
  | nil => exact h c (List.mem_cons_self _ _)
  | cons cur rest ih =>
    apply ih (bestStep c cur)
    intro r hr
    rcases List.mem_cons.mp hr with h' | h'
    · subst h'
      rw [effPenalty_bestStep]
      exact le_min (h c (by simp)) (h cur (by simp))
    · exact h r (by simp [h'])

/-- C1: zero-penalty precedence in route selection.  For a non-empty
candidate list whose effective penalties are nonnegative (as every penalty
the scorer produces is), if some candidate reads penalty 0 then the reduce
selects a candidate reading penalty 0; moreover a single comparison step
never rejects a zero-penalty candidate in favour of a positive-penalty one,
regardless of either candidate's raw duration. -/
theorem zero_penalty_precedence (c : RouteData) (cs : List RouteData)
    (hnn : ∀ r ∈ c :: cs, 0 ≤ effPenalty r)
    (hz : ∃ r ∈ c :: cs, effPenalty r = 0) :
    effPenalty (selectBest c cs) = 0
    ∧ (∀ b cur : RouteData, effPenalty b = 0 → 0 < effPenalty cur →
        bestStep b cur = b)
    ∧ (∀ b cur : RouteData, 0 < effPenalty b → effPenalty cur = 0 →
        bestStep b cur = cur) := by
  refine ⟨?_, ?_, ?_⟩
  · obtain ⟨r, hr, hr0⟩ := hz
    have hle : effPenalty (selectBest c cs) ≤ 0 := by
      rcases List.mem_cons.mp hr with h | h
      · subst h; rw [← hr0]; exact selectBest_le_head _ _
      · rw [← hr0]; exact selectBest_le_mem _ _ r h
    exact le_antisymm hle (selectBest_nonneg _ _ hnn)
  · intro b cur hb hcur
    unfold bestStep
    rw [if_neg (by rintro ⟨-, h2⟩; exact absurd h2 (ne_of_gt hcur)),
      if_pos (by rw [hb]; exact le_of_lt hcur)]
  · intro b cur hb hcur
    unfold bestStep
    rw [if_neg (by rintro ⟨h1, -⟩; exact absurd h1 (ne_of_gt hb)),
      if_neg (by rw [hcur]; exact not_le_of_lt hb)]

/-- A zero-penalty candidate with a long raw duration (900000 ms). -/
def candC1zero : RouteData :=
  RouteData.mk [Path.mk 900000 1 [] none]

/-- A penalty-2400 candidate with a short raw duration (100 ms). -/
def candC1pen : RouteData :=
  RouteData.mk [Path.mk 100 1 [] (some (PenaltyReport.mk 2400 6 10 241 4))]

/-- Witness for C1 at a concrete candidate pair: the zero-penalty candidate
with the long duration beats the positive-penalty candidate with the short
one. -/
theorem zero_penalty_precedence_witness :
    (∀ r ∈ [candC1zero, candC1pen], 0 ≤ effPenalty r)
    ∧ effPenalty (selectBest candC1zero [candC1pen]) = 0 :=
  ⟨by decide, (zero_penalty_precedence _ _ (by decide)
    ⟨candC1zero, List.mem_cons_self _ _, by decide⟩).1⟩

theorem timeLt_irrefl (a : Option ℚ) : timeLt a a = false := by
  cases a with
  | none => rfl
  | some x => simp [timeLt]

theorem timeLt_asymm {a b : Option ℚ} (h : timeLt a b = true) :
    timeLt b a = false := by
  cases a with
  | none => simp [timeLt] at h
  | some x =>
    cases b with
    | none => rfl
    | some y =>
      simp [timeLt] at h ⊢
      exact le_of_lt h

theorem timeLt_false_trans {a b c : Option ℚ} (h1 : timeLt a b = false)
    (h2 : timeLt b c = false) : timeLt a c = false := by
  cases a with
  | none => rfl
  | some x =>
    cases c with
    | none =>
      cases b with
      | none => exact h1
      | some y => simp [timeLt] at h2
    | some z =>
      cases b with
      | none => simp [timeLt] at h1
      | some y =>
        simp [timeLt] at h1 h2 ⊢
        exact le_trans h2 h1

/-- One comparison step never moves away from a zero-penalty candidate with
the smaller effective time: whichever of `b`, `cur` has penalty 0, the
step's result does not have a strictly larger effective time than it. -/
theorem bestStep_time_min (b cur : RouteData) (hb : 0 ≤ effPenalty b)
    (hc : 0 ≤ effPenalty cur) :
    ∀ x, x = b ∨ x = cur → effPenalty x = 0 →
      timeLt (effTime x) (effTime (bestStep b cur)) = false := by
  rintro x (rfl | rfl) hx0
  · unfold bestStep
    by_cases hcur0 : effPenalty cur = 0
    · rw [if_pos ⟨hx0, hcur0⟩]
      cases htt : timeLt (effTime x) (effTime cur) with
      | true => rw [if_pos rfl]; exact timeLt_irrefl _
      | false => rw [if_neg Bool.false_ne_true]; exact htt
    · rw [if_neg (by rintro ⟨-, h2⟩; exact hcur0 h2),
        if_pos (by rw [hx0]; exact hc)]
      exact timeLt_irrefl _
  · unfold bestStep
    by_cases hb0 : effPenalty b = 0
    · rw [if_pos ⟨hb0, hx0⟩]
      cases htt : timeLt (effTime b) (effTime x) with
      | true => rw [if_pos rfl]; exact timeLt_asymm htt
      | false => rw [if_neg Bool.false_ne_true]; exact timeLt_irrefl _
    · rw [if_neg (by rintro ⟨h1, -⟩; exact hb0 h1),
        if_neg (by rw [hx0]; exact fun h => hb0 (le_antisymm h hb))]
      exact timeLt_irrefl _

/-- Among nonnegative-penalty candidates, the fold's winner has an effective
time no larger than that of any zero-penalty candidate in the list. -/
theorem selectBest_time_min (cs : List RouteData) (c : RouteData)
    (hnn : ∀ r ∈ c :: cs, 0 ≤ effPenalty r) :
    ∀ r ∈ c :: cs, effPenalty r = 0 →
      timeLt (effTime r) (effTime (selectBest c cs)) = false := by
  induction cs generalizing c with
  | nil =>
    intro r hr hr0
    rcases List.mem_cons.mp hr with h | h
    · subst h; exact timeLt_irrefl _
    · cases h
  | cons cur rest ih =>
    intro r hr hr0
    have hc0 : 0 ≤ effPenalty c := hnn c (by simp)
    have hcur0 : 0 ≤ effPenalty cur := hnn cur (by simp)
    have hstep : 0 ≤ effPenalty (bestStep c cur) := by
      rw [effPenalty_bestStep]; exact le_min hc0 hcur0
    have hnn' : ∀ x ∈ bestStep c cur :: rest, 0 ≤ effPenalty x := by
      intro x hx
      rcases List.mem_cons.mp hx with h | h
      · subst h; exact hstep
      · exact hnn x (by simp [h])
    have hsel : selectBest c (cur :: rest) = selectBest (bestStep c cur) rest := rfl
    rw [hsel]
    rcases List.mem_cons.mp hr with h | h
    · subst h
      have h1 := bestStep_time_min r cur hc0 hcur0 r (Or.inl rfl) hr0
      have hmin0 : effPenalty (bestStep r cur) = 0 := by
        rw [effPenalty_bestStep, hr0]
        exact le_antisymm (min_le_left _ _) (le_min le_rfl hcur0)
      have h2 := ih (bestStep r cur) hnn' (bestStep r cur) (by simp) hmin0
      exact timeLt_false_trans h1 h2
    · rcases List.mem_cons.mp h with h' | h'
      · subst h'
        have h1 := bestStep_time_min c r hc0 hcur0 r (Or.inr rfl) hr0
        have hmin0 : effPenalty (bestStep c r) = 0 := by
          rw [effPenalty_bestStep, hr0]
          exact le_antisymm (min_le_right _ _) (le_min hc0 le_rfl)
        have h2 := ih (bestStep c r) hnn' (bestStep c r) (by simp) hmin0
        exact timeLt_false_trans h1 h2
      · exact ih (bestStep c cur) hnn' r (by simp [h']) hr0

/-- A candidate reading penalty 5 with raw duration 500 ms. -/
def candC2slow : RouteData :=
  RouteData.mk [Path.mk 500 1 [] (some (PenaltyReport.mk 5 1 10 2 1))]

/-- A candidate reading penalty 5 with raw duration 100 ms. -/
def candC2fast : RouteData :=
  RouteData.mk [Path.mk 100 1 [] (some (PenaltyReport.mk 5 1 10 2 1))]

/-- Counterexample to C2 as stated: two candidates tie at the lowest
penalty 5 (> 0), yet the reduce keeps the first — the 500 ms candidate —
and not the one with the lowest raw duration (100 ms). -/
theorem tiebreak_counterexample :
    effPenalty candC2slow = 5 ∧ effPenalty candC2fast = 5
    ∧ effTime candC2slow = some 500 ∧ effTime candC2fast = some 100
    ∧ (100 : ℚ) < 500
    ∧ selectBest candC2slow [candC2fast] = candC2slow := by decide

/-- C2 (amended): the duration tie-break applies only when the tied lowest
penalty is 0.  If some candidate reads penalty 0 (all penalties being
nonnegative), the winner reads penalty 0 and its effective duration is not
larger than that of any zero-penalty candidate; but when two candidates tie
at a positive penalty, a comparison step keeps the earlier one regardless
of duration. -/
theorem tiebreak_by_duration_amended (c : RouteData) (cs : List RouteData)
    (hnn : ∀ r ∈ c :: cs, 0 ≤ effPenalty r)
    (hz : ∃ r ∈ c :: cs, effPenalty r = 0) :
    effPenalty (selectBest c cs) = 0
    ∧ (∀ r ∈ c :: cs, effPenalty r = 0 →
        timeLt (effTime r) (effTime (selectBest c cs)) = false)
    ∧ (∀ b cur : RouteData, effPenalty b = effPenalty cur →
        0 < effPenalty b → bestStep b cur = b) := by
  refine ⟨?_, selectBest_time_min cs c hnn, ?_⟩
  · obtain ⟨r, hr, hr0⟩ := hz
    have hle : effPenalty (selectBest c cs) ≤ 0 := by
      rcases List.mem_cons.mp hr with h | h
      · subst h; rw [← hr0]; exact selectBest_le_head _ _
      · rw [← hr0]; exact selectBest_le_mem _ _ r h
    exact le_antisymm hle (selectBest_nonneg _ _ hnn)
  · intro b cur heq hpos
    unfold bestStep
    rw [if_neg (by rintro ⟨h1, -⟩; exact absurd h1 (ne_of_gt hpos)),
      if_pos (le_of_eq heq)]

/-- A zero-penalty candidate with raw duration 800000 ms. -/
def candC2A : RouteData := RouteData.mk [Path.mk 800000 1 [] none]

/-- A zero-penalty candidate with raw duration 650000 ms. -/
def candC2B : RouteData := RouteData.mk [Path.mk 650000 1 [] none]

/-- Witness for the amended C2, at the spec's §8 scenario: among two
zero-penalty candidates of 800 s and 650 s, the 650 s one is selected. -/
theorem tiebreak_by_duration_amended_witness :
    (∀ r ∈ [candC2A, candC2B], 0 ≤ effPenalty r)
    ∧ effPenalty (selectBest candC2A [candC2B]) = 0
    ∧ timeLt (effTime candC2B) (effTime (selectBest candC2A [candC2B])) = false
    ∧ selectBest candC2A [candC2B] = candC2B :=
  ⟨by decide,
    (tiebreak_by_duration_amended candC2A [candC2B] (by decide)
      ⟨candC2A, List.mem_cons_self _ _, by decide⟩).1,
    (tiebreak_by_duration_amended candC2A [candC2B] (by decide)
      ⟨candC2A, List.mem_cons_self _ _, by decide⟩).2.1 candC2B (by simp)
      (by decide),
    by decide⟩

/-! ### Scoring lemmas -/

theorem basePenalty_pos (ty : String) : 0 < basePenalty ty := by
  unfold basePenalty
  split_ifs <;> norm_num

theorem scorePoint_single (hit : Coord → WeatherEvent → Bool)
    (e : WeatherEvent) (acc : ℚ × ℕ) (p : Coord) :
    scorePoint hit [e] acc p =
      if hit p e then (acc.1 + basePenalty e.type, acc.2 + 1) else acc := rfl

theorem scorePass_single_aux (hit : Coord → WeatherEvent → Bool)
    (e : WeatherEvent) (coords : List Coord) (acc : ℚ × ℕ) :
    coords.foldl (scorePoint hit [e]) acc =
      (acc.1 + (coords.countP (fun p => hit p e) : ℚ) * basePenalty e.type,
       acc.2 + coords.countP (fun p => hit p e)) := by
  induction coords generalizing acc with
  | nil => simp
  | cons p rest ih =>
    rw [List.foldl_cons, ih, scorePoint_single, List.countP_cons]
    by_cases h : hit p e
    · rw [if_pos h]
      simp only [h, if_true, Prod.mk.injEq]
      constructor
      · push_cast; ring
      · omega
    · rw [if_neg h]
      have h' : hit p e = false := by simpa using h
      simp only [h', Bool.false_eq_true, if_false, Prod.mk.injEq]
      constructor
      · push_cast; ring
      · omega

/-- With a single active event, the scoring pass counts the hit points and
charges the event's base penalty once per hit. -/
theorem scorePass_single (hit : Coord → WeatherEvent → Bool)
    (e : WeatherEvent) (coords : List Coord) :
    scorePass hit coords [e] =
      ((coords.countP (fun p => hit p e) : ℚ) * basePenalty e.type,
       coords.countP (fun p => hit p e)) := by
  unfold scorePass
  rw [scorePass_single_aux]
  simp

/-- C3: penalty arithmetic.  For a route whose sampled geometry has exactly
6 points inside one active storm-class hazard zone (and no other hazard
hits), scoring reports 6 affected points, base penalty 600, severity
multiplier `min (1 + 6*0.5) 10 = 4`, final penalty `600 * 4 = 2400`, and the
path's duration is scaled by `1 + 2400*0.1 = 241` and its distance by
`1 + 2400*0.02 = 49`, both rounded. -/
theorem penalty_arithmetic (hit : Coord → WeatherEvent → Bool)
    (e : WeatherEvent) (path : Path) (rest : List Path)
    (hact : e.active = true)
    (hty : lowerString e.type = "storm" ∨ lowerString e.type = "heavy_rain" ∨
      lowerString e.type = "hurricane")
    (hcount : (sampleRoute path.coords).countP (fun p => hit p e) = 6) :
    applyWeatherPenalties hit [e] (RouteData.mk (path :: rest)) =
      RouteData.mk
        ({ path with
            time := (jsRound (path.time * 241) : ℚ),
            distance := (jsRound (path.distance * 49) : ℚ),
            weather_penalties := some
              { total_penalty := 2400,
                affected_points := 6,
                total_route_points := (sampleRoute path.coords).length,
                penalty_multiplier := 241,
                severity_multiplier := 4 } } :: rest) := by
  have hbase : basePenalty e.type = 100 := by
    unfold basePenalty
    rcases hty with h | h | h
    · rw [if_pos (Or.inl h)]
    · rw [if_pos (Or.inr (Or.inl h))]
    · rw [if_pos (Or.inr (Or.inr h))]
  have hfil : [e].filter (·.active) = [e] := by simp [hact]
  simp only [applyWeatherPenalties, hfil, List.isEmpty_cons, scorePass_single,
    hcount, hbase, if_false, Bool.false_eq_true]
  norm_num

/-- The storm event of the C3 scenario. -/
def evC3 : WeatherEvent := WeatherEvent.mk "W001" "storm" 0 0 2 true

/-- A hit test that flags exactly the points with latitude 1. -/
def hitLat1 : Coord → WeatherEvent → Bool := fun p _ => decide (p.1 = 1)

/-- A 10-point route geometry of which exactly 6 points sit at latitude 1. -/
def pathC3 : Path :=
  Path.mk 600000 5000
    [(1, 0), (1, 1), (1, 2), (1, 3), (1, 4), (1, 5), (2, 0), (2, 1), (2, 2),
     (2, 3)] none

/-- Witness for C3 on a concrete 10-point route with 6 storm hits. -/
theorem penalty_arithmetic_witness :
    (evC3.active = true
    ∧ (sampleRoute pathC3.coords).countP (fun p => hitLat1 p evC3) = 6)
    ∧ applyWeatherPenalties hitLat1 [evC3] (RouteData.mk [pathC3]) =
      RouteData.mk
        [{ pathC3 with
            time := (jsRound (pathC3.time * 241) : ℚ),
            distance := (jsRound (pathC3.distance * 49) : ℚ),
            weather_penalties := some
              { total_penalty := 2400,
                affected_points := 6,
                total_route_points := (sampleRoute pathC3.coords).length,
                penalty_multiplier := 241,
                severity_multiplier := 4 } }] :=
  ⟨⟨rfl, by decide⟩,
    penalty_arithmetic hitLat1 evC3 pathC3 [] rfl (Or.inl (by decide)) (by decide)⟩

/-! ### Monotonicity of the scorer -/

theorem scorePoint_mono (hit1 hit2 : Coord → WeatherEvent → Bool)
    (events : List WeatherEvent)
    (hsub : ∀ p e, hit1 p e = true → hit2 p e = true) (p : Coord) :
    ∀ a b : ℚ × ℕ, a.1 ≤ b.1 → a.2 ≤ b.2 →
      (scorePoint hit1 events a p).1 ≤ (scorePoint hit2 events b p).1
      ∧ (scorePoint hit1 events a p).2 ≤ (scorePoint hit2 events b p).2 := by
  induction events with
  | nil => exact fun a b h1 h2 => ⟨h1, h2⟩
  | cons e es ih =>
    intro a b h1 h2
    have step : ∀ (hit : Coord → WeatherEvent → Bool) (c : ℚ × ℕ),
        scorePoint hit (e :: es) c p =
          scorePoint hit es
            (if hit p e then (c.1 + basePenalty e.type, c.2 + 1) else c) p :=
      fun hit c => rfl
    rw [step hit1 a, step hit2 b]
    by_cases hh1 : hit1 p e
    · rw [if_pos hh1, if_pos (hsub p e hh1)]
      exact ih _ _ (by simpa using h1) (by simpa using h2)
    · rw [if_neg hh1]
      by_cases hh2 : hit2 p e
      · rw [if_pos hh2]
        refine ih _ _ ?_ ?_
        · show a.1 ≤ b.1 + basePenalty e.type
          exact le_trans h1
            (le_add_of_nonneg_right (le_of_lt (basePenalty_pos e.type)))
        · show a.2 ≤ b.2 + 1
          omega
      · rw [if_neg hh2]
        exact ih _ _ h1 h2

theorem scorePass_mono (hit1 hit2 : Coord → WeatherEvent → Bool)
    (coords : List Coord) (events : List WeatherEvent)
    (hsub : ∀ p e, hit1 p e = true → hit2 p e = true) :
    (scorePass hit1 coords events).1 ≤ (scorePass hit2 coords events).1
    ∧ (scorePass hit1 coords events).2 ≤ (scorePass hit2 coords events).2 := by
  have main : ∀ a b : ℚ × ℕ, a.1 ≤ b.1 → a.2 ≤ b.2 →
      (coords.foldl (scorePoint hit1 events) a).1
        ≤ (coords.foldl (scorePoint hit2 events) b).1
      ∧ (coords.foldl (scorePoint hit1 events) a).2
        ≤ (coords.foldl (scorePoint hit2 events) b).2 := by
    induction coords with
    | nil => exact fun a b h1 h2 => ⟨h1, h2⟩
    | cons p rest ih =>
      intro a b h1 h2
      rw [List.foldl_cons, List.foldl_cons]
      obtain ⟨m1, m2⟩ := scorePoint_mono hit1 hit2 events hsub p a b h1 h2
      exact ih _ _ m1 m2
  exact main (0, 0) (0, 0) le_rfl le_rfl

/-- The hit predicate that never fires. -/
def hitNone : Coord → WeatherEvent → Bool := fun _ _ => false

theorem scorePoint_hitNone (events : List WeatherEvent) (a : ℚ × ℕ)
    (p : Coord) : scorePoint hitNone events a p = a := by
  induction events generalizing a with
  | nil => rfl
  | cons e es ih => exact ih a

theorem scorePass_hitNone (coords : List Coord) (events : List WeatherEvent) :
    scorePass hitNone coords events = (0, 0) := by
  unfold scorePass
  induction coords with
  | nil => rfl
  | cons p rest ih => rw [List.foldl_cons, scorePoint_hitNone]; exact ih

theorem scorePass_fst_nonneg (hit : Coord → WeatherEvent → Bool)
    (coords : List Coord) (events : List WeatherEvent) :
    0 ≤ (scorePass hit coords events).1 := by
  have := (scorePass_mono hitNone hit coords events
    (fun p e h => by simp [hitNone] at h)).1
  rwa [scorePass_hitNone] at this

/-- The final `total_penalty` the scorer produces for a route geometry: the
base-penalty sum of the scoring pass times the severity multiplier when any
sampled point is affected, and 0 otherwise (the route is then left
unchanged and selection reads its penalty as 0). -/
def scoredPenalty (hit : Coord → WeatherEvent → Bool)
    (events : List WeatherEvent) (coords : List Coord) : ℚ :=
  let weatherEvents := events.filter (·.active)
  let scored := scorePass hit (sampleRoute coords) weatherEvents
  if scored.1 > 0 ∧ scored.2 > 0 then
    scored.1 * min (1 + (scored.2 : ℚ) * (1/2)) 10
  else 0

/-- C5: scoring monotonicity.  For a fixed route geometry and fixed hazard
configuration, a scoring pass whose set of (point, hazard) hits contains
another's never yields a smaller final `total_penalty`. -/
theorem scoring_monotonicity (hit1 hit2 : Coord → WeatherEvent → Bool)
    (events : List WeatherEvent) (coords : List Coord)
    (hsub : ∀ p e, hit1 p e = true → hit2 p e = true) :
    scoredPenalty hit1 events coords ≤ scoredPenalty hit2 events coords := by
  unfold scoredPenalty
  obtain ⟨m1, m2⟩ := scorePass_mono hit1 hit2 (sampleRoute coords)
    (events.filter (·.active)) hsub
  have h1nn := scorePass_fst_nonneg hit1 (sampleRoute coords)
    (events.filter (·.active))
  set s1 := scorePass hit1 (sampleRoute coords) (events.filter (·.active))
  set s2 := scorePass hit2 (sampleRoute coords) (events.filter (·.active))
  have hmin1 : (0:ℚ) ≤ min (1 + (s1.2 : ℚ) * (1/2)) 10 :=
    le_min (by positivity) (by norm_num)
  have hmin2 : (0:ℚ) ≤ min (1 + (s2.2 : ℚ) * (1/2)) 10 :=
    le_min (by positivity) (by norm_num)
  by_cases hc1 : s1.1 > 0 ∧ s1.2 > 0
  · rw [if_pos hc1, if_pos ⟨lt_of_lt_of_le hc1.1 m1, lt_of_lt_of_le hc1.2 m2⟩]
    refine mul_le_mul m1 (min_le_min ?_ le_rfl) hmin1 (le_trans h1nn m1)
    have : (s1.2 : ℚ) ≤ (s2.2 : ℚ) := Nat.cast_le.mpr m2
    nlinarith
  · rw [if_neg hc1]
    by_cases hc2 : s2.1 > 0 ∧ s2.2 > 0
    · rw [if_pos hc2]
      exact mul_nonneg (le_of_lt hc2.1) hmin2
    · rw [if_neg hc2]

/-- The hit predicate that always fires. -/
def hitAll : Coord → WeatherEvent → Bool := fun _ _ => true

/-- A fog event used by the monotonicity witness. -/
def evC5 : WeatherEvent := WeatherEvent.mk "W002" "fog" 0 0 1 true

/-- Witness for C5: no hits at all versus every point hit, on a concrete
geometry. -/
theorem scoring_monotonicity_witness :
    (∀ p e, hitNone p e = true → hitAll p e = true)
    ∧ scoredPenalty hitNone [evC5] [(0, 0), (0, 1)]
      ≤ scoredPenalty hitAll [evC5] [(0, 0), (0, 1)] :=
  ⟨fun _ _ _ => rfl,
    scoring_monotonicity hitNone hitAll [evC5] [(0, 0), (0, 1)]
      (fun _ _ _ => rfl)⟩

/-! ### The all-strategies-failed fallback -/

/-- C6 (amended): when every weather-aware strategy query fails, the system
issues the single direct fallback query and returns its result after
passing it through `applyWeatherPenalties` — the fallback route is scored
and penalized like any other, not returned unscored. -/
theorem all_strategies_failed_fallback (hit : Coord → WeatherEvent → Bool)
    (events : List WeatherEvent) (strategyResults : List (Option RouteData))
    (fallbackRoute : RouteData)
    (hall : ∀ s ∈ strategyResults, s = none) :
    getBestWeatherAwareRoute hit events strategyResults fallbackRoute =
      applyWeatherPenalties hit events fallbackRoute := by
  unfold getBestWeatherAwareRoute
  have hnil : strategyResults.filterMap
      (fun o => o.map (applyWeatherPenalties hit events)) = [] := by
    induction strategyResults with
    | nil => rfl
    | cons s rest ih =>
      rw [List.filterMap_cons, hall s (List.mem_cons_self _ _)]
      exact ih (fun x hx => hall x (List.mem_cons_of_mem _ hx))
  rw [hnil]

/-- The storm event of the C6 counterexample. -/
def evC6 : WeatherEvent := WeatherEvent.mk "W003" "storm" 0 0 5 true

/-- The 10-point geometry of the C6 fallback route. -/
def coordsC6 : List Coord :=
  [(0, 0), (0, 1), (0, 2), (0, 3), (0, 4), (0, 5), (0, 6), (0, 7), (0, 8),
   (0, 9)]

/-- The path of the C6 fallback route: 1000 ms, 500 m, unscored. -/
def pathC6 : Path := Path.mk 1000 500 coordsC6 none

/-- The C6 fallback route. -/
def fbC6 : RouteData := RouteData.mk [pathC6]

/-- Counterexample to C6 as stated: with every strategy failed and a storm
zone covering all 10 sampled points of the fallback route, the returned
route is NOT the unscored fallback — its duration is scaled from 1000 ms to
601000 ms, its distance from 500 m to 60500 m, and a penalty report (total
penalty 6000) is attached. -/
theorem fallback_scored_counterexample :
    getBestWeatherAwareRoute hitAll [evC6] [none, none] fbC6 =
      RouteData.mk
        [Path.mk 601000 60500 coordsC6
          (some (PenaltyReport.mk 6000 10 10 601 6))]
    ∧ getBestWeatherAwareRoute hitAll [evC6] [none, none] fbC6 ≠ fbC6 := by
  have hfil : [evC6].filter (·.active) = [evC6] := rfl
  have hmain : getBestWeatherAwareRoute hitAll [evC6] [none, none] fbC6 =
      applyWeatherPenalties hitAll [evC6] (RouteData.mk [pathC6]) := rfl
  have hcount : (sampleRoute pathC6.coords).countP (fun p => hitAll p evC6)
      = 10 := by decide
  have hbase : basePenalty evC6.type = 100 := by decide
  have hlen : (sampleRoute pathC6.coords).length = 10 := by decide
  have happ : applyWeatherPenalties hitAll [evC6] (RouteData.mk [pathC6]) =
      RouteData.mk
        [Path.mk 601000 60500 coordsC6
          (some (PenaltyReport.mk 6000 10 10 601 6))] := by
    simp only [applyWeatherPenalties, hfil, List.isEmpty_cons,
      scorePass_single, hcount, hbase, hlen]
    norm_num [pathC6, jsRound]
  refine ⟨hmain.trans happ, ?_⟩
  rw [hmain, happ]
  intro hcontra
  have h5 := congrArg effPenalty hcontra
  simp [effPenalty, fbC6, pathC6] at h5

/-- Witness for the amended C6: with both strategy slots failed, the result
is the fallback passed through the scorer. -/
theorem all_strategies_failed_fallback_witness :
    (∀ s ∈ ([none, none] : List (Option RouteData)), s = none)
    ∧ getBestWeatherAwareRoute hitAll [evC6] [none, none] fbC6 =
        applyWeatherPenalties hitAll [evC6] fbC6 :=
  ⟨by intro s hs; rcases List.mem_cons.mp hs with h | h
      · exact h
      · simpa using h,
    all_strategies_failed_fallback hitAll [evC6] [none, none] fbC6
      (by intro s hs; rcases List.mem_cons.mp hs with h | h
          · exact h
          · simpa using h)⟩

/-- The selection hypotheses of the zero-penalty theorems are met by the
pipeline: scoring never outputs a negative effective penalty.  Starting
from a candidate reading a nonnegative penalty (a fresh provider response
reads 0), `applyWeatherPenalties` yields a candidate reading a nonnegative
penalty. -/
theorem effPenalty_applyWeatherPenalties_nonneg
    (hit : Coord → WeatherEvent → Bool) (events : List WeatherEvent)
    (routeData : RouteData) (h : 0 ≤ effPenalty routeData) :
    0 ≤ effPenalty (applyWeatherPenalties hit events routeData) := by
  simp only [applyWeatherPenalties]
  cases hp : routeData.paths with
  | nil => exact h
  | cons path rest =>
    simp only []
    split_ifs with he hc
    · exact h
    · simp only [effPenalty, List.head?]
      exact mul_nonneg
        (scorePass_fst_nonneg hit (sampleRoute path.coords)
          (events.filter (fun e => e.active)))
        (le_min (by positivity) (by norm_num))
    · exact h

end Backend

namespace Frontend

/-- A `(lat, lng)` pair in degrees, as used throughout `App.tsx`. -/
abbrev Pos := ℝ × ℝ

/-- JavaScript `Math.trunc`: round toward zero. -/
noncomputable def jsTrunc (q : ℝ) : ℤ := if 0 ≤ q then ⌊q⌋ else ⌈q⌉

/-- The JavaScript `%` remainder (sign of the dividend): `x - m * trunc (x/m)`. -/
noncomputable def jsMod (x m : ℝ) : ℝ := x - m * (jsTrunc (x / m) : ℝ)

/-- `Math.atan2`, written out by quadrant. -/
noncomputable def atan2 (y x : ℝ) : ℝ :=
  if 0 < x then Real.arctan (y / x)
  else if x < 0 ∧ 0 ≤ y then Real.arctan (y / x) + Real.pi
  else if x < 0 ∧ y < 0 then Real.arctan (y / x) - Real.pi
  else if x = 0 ∧ 0 < y then Real.pi / 2
  else if x = 0 ∧ y < 0 then -(Real.pi / 2)
  else 0

/-- `calculateDistance` of `App.tsx`: the haversine distance in km between
two `(lat, lng)` pairs, on a sphere of radius 6371 km. -/
noncomputable def calculateDistance (pos1 pos2 : Pos) : ℝ :=
  let dLat := (pos2.1 - pos1.1) * Real.pi / 180
  let dLng := (pos2.2 - pos1.2) * Real.pi / 180
  let a := Real.sin (dLat / 2) * Real.sin (dLat / 2) +
    Real.cos (pos1.1 * Real.pi / 180) * Real.cos (pos2.1 * Real.pi / 180) *
      (Real.sin (dLng / 2) * Real.sin (dLng / 2))
  let c := 2 * atan2 (Real.sqrt a) (Real.sqrt (1 - a))
  6371 * c

/-- The radian bearing computed inside `calculateBearing` of `App.tsx`
(`atan2 y x` before conversion to degrees). -/
noncomputable def bearingRad (pos1 pos2 : Pos) : ℝ :=
  let dLng := (pos2.2 - pos1.2) * Real.pi / 180
  let lat1Rad := pos1.1 * Real.pi / 180
  let lat2Rad := pos2.1 * Real.pi / 180
  let y := Real.sin dLng * Real.cos lat2Rad
  let x := Real.cos lat1Rad * Real.sin lat2Rad -
    Real.sin lat1Rad * Real.cos lat2Rad * Real.cos dLng
  atan2 y x

/-- `calculateBearing` of `App.tsx`: the degree bearing in `[0, 360)`,
`(bearingRad * 180 / π + 360) % 360`. -/
noncomputable def calculateBearing (pos1 pos2 : Pos) : ℝ :=
  jsMod (bearingRad pos1 pos2 * 180 / Real.pi + 360) 360

/-- `moveTowardsTarget` of `App.tsx`: if the distance coverable in this tick
(`speedKmh` converted to km/ms times `deltaTimeMs`) reaches the haversine
distance to the target, snap to the target; otherwise move both coordinates
linearly toward the target by `moveDistance / distance`. -/
noncomputable def moveTowardsTarget (currentPos targetPos : Pos)
    (speedKmh deltaTimeMs : ℝ) : Pos :=
  let distance := calculateDistance currentPos targetPos
  let speedKmPerMs := speedKmh / (1000 * 60 * 60)
  let moveDistance := speedKmPerMs * deltaTimeMs
  if moveDistance ≥ distance then targetPos
  else
    let ratio := moveDistance / distance
    (currentPos.1 + (targetPos.1 - currentPos.1) * ratio,
     currentPos.2 + (targetPos.2 - currentPos.2) * ratio)

/-- C8: arrival snapping.  Whenever the per-tick travel
`speed * tickDuration` (in the code's units, `speedKmh / 3.6e6 * deltaTimeMs`
km) is at least the haversine distance from the current position to the
target vertex, one interpolation step returns exactly the target vertex. -/
theorem arrival_snapping (currentPos targetPos : Pos)
    (speedKmh deltaTimeMs : ℝ)
    (h : speedKmh / (1000 * 60 * 60) * deltaTimeMs ≥
      calculateDistance currentPos targetPos) :
    moveTowardsTarget currentPos targetPos speedKmh deltaTimeMs = targetPos := by
  simp only [moveTowardsTarget]
  rw [if_pos h]

/-- The haversine distance from a point to itself is 0. -/
theorem calculateDistance_self (p : Pos) : calculateDistance p p = 0 := by
  simp only [calculateDistance, atan2]
  norm_num [Real.arctan_zero]

/-- Witness for C8: a driver already standing on its target vertex snaps to
it (the tick travel 1/3600000 km exceeds the zero distance). -/
theorem arrival_snapping_witness :
    (1 : ℝ) / (1000 * 60 * 60) * 1 ≥ calculateDistance (0, 0) (0, 0)
    ∧ moveTowardsTarget (0, 0) (0, 0) 1 1 = (0, 0) := by
  have h : (1 : ℝ) / (1000 * 60 * 60) * 1 ≥ calculateDistance (0, 0) (0, 0) := by
    rw [calculateDistance_self]
    norm_num
  exact ⟨h, arrival_snapping (0, 0) (0, 0) 1 1 h⟩

/-- `moveTowardsTarget` of
`src/web-ui/logistics-dashboard/src/components/DriverMobileView.tsx`
(lines 410-437): the mobile view's bearing-based interpolator, this
repository's own implementation of the great-circle step §4.5 describes.
Its local `calculateDistance` and `calculateBearing` are textually
identical to the `App.tsx` ones embedded above, so those embeddings are
reused.  In the non-arrival case it advances from the current position
along the initial bearing (converted back from degrees) by the angular
distance `moveDistanceKm / 6371`, via the spherical destination-point
formulas. -/
noncomputable def DriverMobileView.moveTowardsTarget
    (currentPos targetPos : Pos) (speedKmh deltaTimeMs : ℝ) : Pos :=
  let distanceKm := calculateDistance currentPos targetPos
  let speedKmPerMs := speedKmh / (1000 * 60 * 60)
  let moveDistanceKm := speedKmPerMs * deltaTimeMs
  if distanceKm ≤ moveDistanceKm then targetPos
  else
    let bearing := calculateBearing currentPos targetPos * Real.pi / 180
    let lat1Rad := currentPos.1 * Real.pi / 180
    let lng1Rad := currentPos.2 * Real.pi / 180
    let angularDistance := moveDistanceKm / 6371
    let lat2Rad := Real.arcsin (Real.sin lat1Rad * Real.cos angularDistance +
      Real.cos lat1Rad * Real.sin angularDistance * Real.cos bearing)
    let lng2Rad := lng1Rad + atan2
      (Real.sin bearing * Real.sin angularDistance * Real.cos lat1Rad)
      (Real.cos angularDistance - Real.sin lat1Rad * Real.sin lat2Rad)
    (lat2Rad * 180 / Real.pi, lng2Rad * 180 / Real.pi)

theorem cos_deg89_pos : 0 < Real.cos (89 * Real.pi / 180) := by
  apply Real.cos_pos_of_mem_Ioo
  constructor
  · nlinarith [Real.pi_pos]
  · nlinarith [Real.pi_pos]

theorem sin_deg89_pos : 0 < Real.sin (89 * Real.pi / 180) := by
  apply Real.sin_pos_of_pos_of_lt_pi
  · positivity
  · nlinarith [Real.pi_pos]

theorem cos_deg89_eq : Real.cos (89 * Real.pi / 180) = Real.sin (Real.pi / 180) := by
  rw [show Real.pi / 180 = Real.pi / 2 - 89 * Real.pi / 180 from by ring,
    Real.sin_pi_div_two_sub]

theorem sin_deg89_eq : Real.sin (89 * Real.pi / 180) = Real.cos (Real.pi / 180) := by
  rw [show Real.pi / 180 = Real.pi / 2 - 89 * Real.pi / 180 from by ring,
    Real.cos_pi_div_two_sub]

/-- The haversine distance between `(89, 0)` and `(89, 180)` (a 2-degree
great-circle arc over the pole). -/
theorem calculateDistance_89 :
    calculateDistance (89, 0) (89, 180) = 6371 * (Real.pi / 90) := by
  simp only [calculateDistance]
  norm_num
  have ha : Real.sqrt (Real.cos (89 * Real.pi / 180) * Real.cos (89 * Real.pi / 180)) =
      Real.cos (89 * Real.pi / 180) := Real.sqrt_mul_self cos_deg89_pos.le
  have hb : (1:ℝ) - Real.cos (89 * Real.pi / 180) * Real.cos (89 * Real.pi / 180) =
      Real.sin (89 * Real.pi / 180) * Real.sin (89 * Real.pi / 180) := by
    nlinarith [Real.sin_sq_add_cos_sq (89 * Real.pi / 180)]
  rw [ha, hb, Real.sqrt_mul_self sin_deg89_pos.le]
  rw [atan2, if_pos sin_deg89_pos]
  rw [cos_deg89_eq, sin_deg89_eq, ← Real.tan_eq_sin_div_cos, Real.arctan_tan]
  · ring
  · nlinarith [Real.pi_pos]
  · nlinarith [Real.pi_pos]

/-- The initial bearing from `(89, 0)` to `(89, 180)` is due north (0 rad). -/
theorem bearingRad_89 : bearingRad (89, 0) (89, 180) = 0 := by
  simp only [bearingRad]
  norm_num
  rw [atan2, if_pos (by nlinarith [mul_pos cos_deg89_pos sin_deg89_pos])]
  simp [Real.arctan_zero]

theorem not_arrival_89 :
    ¬ ((1:ℝ) / (1000 * 60 * 60) * (6371 * (Real.pi / 180) * 3600000) ≥
      6371 * (Real.pi / 90)) := by
  push_neg
  nlinarith [Real.pi_pos]

/-- The degree bearing from `(89, 0)` to `(89, 180)` is 0 (due north). -/
theorem calculateBearing_89 : calculateBearing (89, 0) (89, 180) = 0 := by
  unfold calculateBearing
  rw [bearingRad_89]
  norm_num
  norm_num [jsMod, jsTrunc]

/-- Counterexample to C9 as stated: from `(89, 0)` toward `(89, 180)` with
a tick covering exactly half the distance (a non-arrival step), `App.tsx`'s
interpolator — the one the claim describes — keeps latitude 89 (a linear
lat/lng blend), while the repository's own cardinal-bearing great-circle
interpolator (`DriverMobileView.tsx`'s `moveTowardsTarget`) crosses the
pole and yields latitude 90: the `App.tsx` step is not a great-circle
move. -/
theorem great_circle_counterexample :
    ¬ ((1:ℝ) / (1000 * 60 * 60) * (6371 * (Real.pi / 180) * 3600000) ≥
      calculateDistance (89, 0) (89, 180))
    ∧ (moveTowardsTarget (89, 0) (89, 180) 1
        (6371 * (Real.pi / 180) * 3600000)).1 = 89
    ∧ (DriverMobileView.moveTowardsTarget (89, 0) (89, 180) 1
        (6371 * (Real.pi / 180) * 3600000)).1 = 90
    ∧ (89 : ℝ) ≠ 90 := by
  refine ⟨by rw [calculateDistance_89]; exact not_arrival_89, ?_, ?_, by norm_num⟩
  · simp only [moveTowardsTarget]
    rw [calculateDistance_89, if_neg not_arrival_89]
    norm_num
  · simp only [DriverMobileView.moveTowardsTarget]
    rw [calculateDistance_89, if_neg not_arrival_89, calculateBearing_89]
    norm_num
    have hdelta : (1:ℝ) / 3600000 * (6371 * (Real.pi / 180) * 3600000) / 6371 =
        Real.pi / 180 := by
      field_simp
      ring
    rw [hdelta]
    rw [show Real.sin (89 * Real.pi / 180) * Real.cos (Real.pi / 180) +
        Real.cos (89 * Real.pi / 180) * Real.sin (Real.pi / 180) =
        Real.sin (89 * Real.pi / 180 + Real.pi / 180) from (Real.sin_add _ _).symm]
    rw [show (89:ℝ) * Real.pi / 180 + Real.pi / 180 = Real.pi / 2 from by ring]
    rw [Real.sin_pi_div_two, Real.arcsin_one]
    field_simp
    ring

/-- C9 (amended): in the non-arrival case the interpolator moves by a naive
linear lat/lng blend of the two coordinates — each coordinate advances by
`(target - current) * (moveDistance / distance)` — not along a great-circle
bearing. -/
theorem linear_blend_amended (currentPos targetPos : Pos)
    (speedKmh deltaTimeMs : ℝ)
    (h : ¬ (speedKmh / (1000 * 60 * 60) * deltaTimeMs ≥
      calculateDistance currentPos targetPos)) :
    moveTowardsTarget currentPos targetPos speedKmh deltaTimeMs =
      (currentPos.1 + (targetPos.1 - currentPos.1) *
        (speedKmh / (1000 * 60 * 60) * deltaTimeMs /
          calculateDistance currentPos targetPos),
       currentPos.2 + (targetPos.2 - currentPos.2) *
        (speedKmh / (1000 * 60 * 60) * deltaTimeMs /
          calculateDistance currentPos targetPos)) := by
  simp only [moveTowardsTarget]
  rw [if_neg h]

/-- The haversine distance between `(0, 0)` and `(0, 180)` is half the
earth's circumference. -/
theorem calculateDistance_0_180 :
    calculateDistance (0, 0) (0, 180) = 6371 * Real.pi := by
  simp only [calculateDistance]
  norm_num
  rw [atan2]
  norm_num
  ring

theorem not_arrival_0_180 :
    ¬ ((1:ℝ) / (1000 * 60 * 60) * 1 ≥ calculateDistance (0, 0) (0, 180)) := by
  rw [calculateDistance_0_180]
  push_neg
  nlinarith [Real.pi_gt_three]

/-- Witness for the amended C9 at a concrete non-arrival step. -/
theorem linear_blend_amended_witness :
    ¬ ((1:ℝ) / (1000 * 60 * 60) * 1 ≥ calculateDistance (0, 0) (0, 180))
    ∧ moveTowardsTarget (0, 0) (0, 180) 1 1 =
      ((0:ℝ) + ((0:ℝ) - 0) *
        ((1:ℝ) / (1000 * 60 * 60) * 1 / calculateDistance (0, 0) (0, 180)),
       (0:ℝ) + ((180:ℝ) - 0) *
        ((1:ℝ) / (1000 * 60 * 60) * 1 / calculateDistance (0, 0) (0, 180))) :=
  ⟨not_arrival_0_180, linear_blend_amended (0, 0) (0, 180) 1 1 not_arrival_0_180⟩

/-! ### The driver-progress state machine -/

inductive DeliveryStatus
  | pending
  | picked_up
  | delivered
deriving DecidableEq, Repr

inductive TargetType
  | pickup
  | delivery
deriving DecidableEq, Repr

/-- One delivery order assigned to a driver: pickup and delivery
coordinates plus the order status. -/
structure Delivery where
  pickup_latitude : ℝ
  pickup_longitude : ℝ
  delivery_latitude : ℝ
  delivery_longitude : ℝ
  status : DeliveryStatus

/-- The runtime record of one driver (the `ExtendedDriver` fields the
simulation reads and writes); `none` models the JavaScript `undefined`. -/
structure Driver where
  id : String
  latitude : ℝ
  longitude : ℝ
  isMoving : Bool := false
  simulationPosition : Option Pos := none
  currentTarget : Option TargetType := none
  currentDeliveryIndex : Option ℕ := none
  activeRoute : Option (List Pos) := none
  currentRouteIndex : Option ℕ := none
  speed : Option ℝ := none
  heading : Option ℝ := none
  lastPosition : Option Pos := none
  deliveries : List Delivery := []

/-- A successful `apiService.calculateRoute` response; the `route` field may
be absent. -/
structure ApiRouteResult where
  route : Option (List Pos)

/-- The routing request issued to the backend, as a function of the two
request points; `none` models a request that threw. -/
abbrev CalcRoute := Pos → Pos → Option ApiRouteResult

/-- `driver.currentDeliveryIndex || 0`. -/
def cdi (d : Driver) : ℕ := d.currentDeliveryIndex.getD 0

/-- A delivery's pickup coordinate. -/
def pickupPos (del : Delivery) : Pos :=
  (del.pickup_latitude, del.pickup_longitude)

/-- A delivery's delivery coordinate. -/
def deliveryPos (del : Delivery) : Pos :=
  (del.delivery_latitude, del.delivery_longitude)

/-- `driver.speed || simulationSpeed` (`0` is falsy in JavaScript). -/
noncomputable def speedOf (simulationSpeed : ℝ) (d : Driver) : ℝ :=
  match d.speed with
  | some s => if s = 0 then simulationSpeed else s
  | none => simulationSpeed

/-- `deliveries.map((delivery, idx) => idx === i ? {...delivery, status:st}
: delivery)`: replace the status of the delivery at index `i`. -/
def markStatus : List Delivery → ℕ → DeliveryStatus → List Delivery
  | [], _, _ => []
  | del :: rest, 0, st => { del with status := st } :: rest
  | del :: rest, i + 1, st => del :: markStatus rest i st

/-- The reroute target of `recalculateRoutesForActiveDrivers`: the current
delivery's pickup coordinate when the current target is the pickup,
otherwise its delivery coordinate. -/
def targetOf (d : Driver) (del : Delivery) : Pos :=
  if d.currentTarget = some TargetType.pickup then pickupPos del
  else deliveryPos del

/-- The per-driver body of `recalculateRoutesForActiveDrivers`: for a moving
driver with a simulated position and deliveries, request a new route from
the driver's current simulated position to its current target and, on
success, replace `activeRoute` (falling back to the two request points if
the response has no `route`) and reset `currentRouteIndex` to 0; on failure
(or for idle drivers) return the driver unchanged. -/
def recalcDriver (calcRoute : CalcRoute) (driver : Driver) : Driver :=
  match driver.isMoving, driver.simulationPosition with
  | true, some pos =>
    if driver.deliveries.isEmpty then driver
    else
      match driver.deliveries.get? (driver.currentDeliveryIndex.getD 0) with
      | none => driver
      | some currentDelivery =>
        match calcRoute pos (targetOf driver currentDelivery) with
        | none => driver
        | some routeResult =>
          { driver with
            activeRoute :=
              some (routeResult.route.getD [pos, targetOf driver currentDelivery]),
            currentRouteIndex := some 0 }
  | _, _ => driver

/-- A hazard zone as held by the dashboard UI state. -/
structure WeatherEventUI where
  id : String
  type : String
  latitude : ℝ
  longitude : ℝ
  radius : ℝ
  active : Bool

/-- The dashboard state the hazard handlers touch. -/
structure AppState where
  weatherEvents : List WeatherEventUI
  drivers : List Driver
  isSimulating : Bool

/-- `recalculateRoutesForActiveDrivers`: recalculate every driver. -/
def recalculateRoutesForActiveDrivers (calcRoute : CalcRoute)
    (s : AppState) : AppState :=
  { s with drivers := s.drivers.map (recalcDriver calcRoute) }

/-- `toggleWeatherEvent`: flip the event's `active` flag and, if the
simulation is running, recalculate routes for all active drivers. -/
def toggleWeatherEvent (calcRoute : CalcRoute) (eventId : String)
    (s : AppState) : AppState :=
  let flip := fun (e : WeatherEventUI) =>
    if e.id = eventId then { e with active := !e.active } else e
  let s2 : AppState := { s with weatherEvents := s.weatherEvents.map flip }
  if s.isSimulating then recalculateRoutesForActiveDrivers calcRoute s2
  else s2

/-- `addWeatherEventAtPosition`: append the new hazard zone and, if the
simulation is running, recalculate routes for all active drivers. -/
def addWeatherEventAtPosition (calcRoute : CalcRoute)
    (newEvent : WeatherEventUI) (s : AppState) : AppState :=
  let s2 : AppState := { s with weatherEvents := s.weatherEvents ++ [newEvent] }
  if s.isSimulating then recalculateRoutesForActiveDrivers calcRoute s2
  else s2

/-- C4: disruption reroute preserves progress.  Creating a hazard zone or
toggling one while the simulation runs re-routes every driver; for a moving
driver the request goes from its current simulated position (not its
original start) to its current target, and applying the result replaces
`activeRoute`, resets the route cursor to 0, and leaves the current
delivery index, the delivery list with every order's status, the position
and the moving flag unchanged. -/
theorem disruption_reroute_preserves_progress (calcRoute : CalcRoute)
    (eventId : String) (newEvent : WeatherEventUI) (s : AppState)
    (hsim : s.isSimulating = true)
    (d : Driver) (hmov : d.isMoving = true) (pos : Pos)
    (hpos : d.simulationPosition = some pos)
    (hne : d.deliveries.isEmpty = false)
    (del : Delivery)
    (hdel : d.deliveries.get? (d.currentDeliveryIndex.getD 0) = some del)
    (res : ApiRouteResult)
    (hres : calcRoute pos (targetOf d del) = some res) :
    (toggleWeatherEvent calcRoute eventId s).drivers =
      s.drivers.map (recalcDriver calcRoute)
    ∧ (addWeatherEventAtPosition calcRoute newEvent s).drivers =
      s.drivers.map (recalcDriver calcRoute)
    ∧ (recalcDriver calcRoute d).activeRoute =
      some (res.route.getD [pos, targetOf d del])
    ∧ (recalcDriver calcRoute d).currentRouteIndex = some 0
    ∧ (recalcDriver calcRoute d).currentDeliveryIndex = d.currentDeliveryIndex
    ∧ (recalcDriver calcRoute d).deliveries = d.deliveries
    ∧ (recalcDriver calcRoute d).isMoving = d.isMoving
    ∧ (recalcDriver calcRoute d).simulationPosition = d.simulationPosition := by
  have hrec : recalcDriver calcRoute d =
      { d with
        activeRoute := some (res.route.getD [pos, targetOf d del]),
        currentRouteIndex := some 0 } := by
    unfold recalcDriver
    rw [hmov, hpos, hne, hdel]
    simp only [hres, Bool.false_eq_true, if_false]
  refine ⟨?_, ?_, ?_, ?_, ?_, ?_, ?_, ?_⟩
  · simp [toggleWeatherEvent, recalculateRoutesForActiveDrivers, hsim]
  · simp [addWeatherEventAtPosition, recalculateRoutesForActiveDrivers, hsim]
  all_goals rw [hrec]

/-- The order used by the C4 witness. -/
def delC4 : Delivery := Delivery.mk 1 1 2 2 DeliveryStatus.pending

/-- The en-route driver of the C4 witness. -/
def drvC4 : Driver :=
  { id := "D001", latitude := 0, longitude := 0, isMoving := true,
    simulationPosition := some (0, 0),
    currentTarget := some TargetType.pickup,
    currentDeliveryIndex := some 0, activeRoute := some [(2, 2)],
    currentRouteIndex := some 1, speed := some 50,
    deliveries := [delC4] }

/-- The hazard zone of the C4 witness. -/
def evC4 : WeatherEventUI := WeatherEventUI.mk "W001" "storm" 0 0 2 true

/-- The routing stub of the C4 witness. -/
def calcRouteC4 : CalcRoute :=
  fun _ _ => some (ApiRouteResult.mk (some [(0, 0), (1, 1)]))

/-- The dashboard state of the C4 witness, mid-simulation. -/
def appC4 : AppState := AppState.mk [evC4] [drvC4] true

/-- Witness for C4 at a concrete mid-simulation state. -/
theorem disruption_reroute_preserves_progress_witness :
    (appC4.isSimulating = true ∧ drvC4.isMoving = true
    ∧ drvC4.simulationPosition = some (0, 0)
    ∧ drvC4.deliveries.isEmpty = false
    ∧ drvC4.deliveries.get? (drvC4.currentDeliveryIndex.getD 0) = some delC4
    ∧ calcRouteC4 (0, 0) (targetOf drvC4 delC4) =
        some (ApiRouteResult.mk (some [(0, 0), (1, 1)])))
    ∧ ((toggleWeatherEvent calcRouteC4 "W001" appC4).drivers =
        appC4.drivers.map (recalcDriver calcRouteC4)
    ∧ (addWeatherEventAtPosition calcRouteC4 evC4 appC4).drivers =
        appC4.drivers.map (recalcDriver calcRouteC4)
    ∧ (recalcDriver calcRouteC4 drvC4).activeRoute =
        some ((ApiRouteResult.mk (some [(0, 0), (1, 1)])).route.getD
          [(0, 0), targetOf drvC4 delC4])
    ∧ (recalcDriver calcRouteC4 drvC4).currentRouteIndex = some 0
    ∧ (recalcDriver calcRouteC4 drvC4).currentDeliveryIndex =
        drvC4.currentDeliveryIndex
    ∧ (recalcDriver calcRouteC4 drvC4).deliveries = drvC4.deliveries
    ∧ (recalcDriver calcRouteC4 drvC4).isMoving = drvC4.isMoving
    ∧ (recalcDriver calcRouteC4 drvC4).simulationPosition =
        drvC4.simulationPosition) :=
  ⟨⟨rfl, rfl, rfl, rfl, rfl, rfl⟩,
    disruption_reroute_preserves_progress calcRouteC4 "W001" evC4 appC4 rfl
      drvC4 rfl (0, 0) rfl rfl delC4 rfl
      (ApiRouteResult.mk (some [(0, 0), (1, 1)])) rfl⟩

/-- The arrival branch of `updateDriverPositions` (`currentRouteIndex >=
activeRoute.length`): at the end of the current route, either mark the
current order picked up and request the route to its delivery point, or
mark it delivered and request the route to the next order's pickup, or — if
it was the last order — mark it delivered and stop moving.  A failed route
request leaves the driver unchanged (the asynchronous update never fires). -/
def legTransition (calcRoute : CalcRoute) (driver : Driver) : Driver :=
  match driver.deliveries.get? (cdi driver) with
  | none => driver
  | some currentDelivery =>
    if driver.currentTarget = some TargetType.pickup then
      match calcRoute (pickupPos currentDelivery) (deliveryPos currentDelivery) with
      | none => driver
      | some routeResult =>
        { driver with
          simulationPosition := some (pickupPos currentDelivery),
          currentTarget := some TargetType.delivery,
          activeRoute := some (routeResult.route.getD []),
          currentRouteIndex := some 0,
          deliveries :=
            markStatus driver.deliveries (cdi driver) DeliveryStatus.picked_up }
    else
      if cdi driver + 1 < driver.deliveries.length then
        match driver.deliveries.get? (cdi driver + 1) with
        | none => driver
        | some nextDelivery =>
          match calcRoute (deliveryPos currentDelivery) (pickupPos nextDelivery) with
          | none => driver
          | some routeResult =>
            { driver with
              simulationPosition := some (deliveryPos currentDelivery),
              currentTarget := some TargetType.pickup,
              currentDeliveryIndex := some (cdi driver + 1),
              activeRoute := some (routeResult.route.getD []),
              currentRouteIndex := some 0,
              deliveries :=
                markStatus driver.deliveries (cdi driver) DeliveryStatus.delivered }
      else
        { driver with
          simulationPosition := some (deliveryPos currentDelivery),
          isMoving := false,
          currentTarget := none,
          currentDeliveryIndex := none,
          activeRoute := none,
          currentRouteIndex := none,
          deliveries :=
            markStatus driver.deliveries (cdi driver) DeliveryStatus.delivered }

/-- The movement branch of `updateDriverPositions` along an active route:
interpolate toward `activeRoute[currentRouteIndex]`; if the new position is
within 0.01 km of that vertex, snap onto it and advance the cursor by one,
otherwise keep the cursor and store the interpolated position.  The tick
interval is the timer's 100 ms. -/
noncomputable def moveAlongRoute (simulationSpeed : ℝ) (driver : Driver)
    (simPos : Pos) (route : List Pos) (currentRouteIndex : ℕ) : Driver :=
  let targetPoint := route.getD currentRouteIndex (0, 0)
  let newPos :=
    moveTowardsTarget simPos targetPoint (speedOf simulationSpeed driver) 100
  let heading := calculateBearing simPos targetPoint
  if calculateDistance newPos targetPoint < 0.01 then
    { driver with
      simulationPosition := some targetPoint,
      lastPosition := some simPos,
      currentRouteIndex := some (currentRouteIndex + 1),
      heading := some heading }
  else
    { driver with
      simulationPosition := some newPos,
      lastPosition := some simPos,
      heading := some heading }

/-- The straight-line fallback branch of `updateDriverPositions` (no usable
active route): interpolate directly toward the current order's target and,
within 0.01 km of it, perform the corresponding leg transition in place
(without a route request). -/
noncomputable def fallbackMove (simulationSpeed : ℝ) (driver : Driver)
    (simPos : Pos) : Driver :=
  match driver.deliveries.get? (cdi driver) with
  | none => driver
  | some currentDelivery =>
    let targetPos :=
      if driver.currentTarget = some TargetType.pickup then
        pickupPos currentDelivery
      else deliveryPos currentDelivery
    let newPos :=
      moveTowardsTarget simPos targetPos (speedOf simulationSpeed driver) 100
    let heading := calculateBearing simPos targetPos
    if calculateDistance newPos targetPos < 0.01 then
      if driver.currentTarget = some TargetType.pickup then
        { driver with
          simulationPosition := some targetPos,
          lastPosition := some simPos,
          currentTarget := some TargetType.delivery,
          heading := some heading,
          deliveries :=
            markStatus driver.deliveries (cdi driver) DeliveryStatus.picked_up }
      else
        if cdi driver + 1 < driver.deliveries.length then
          { driver with
            simulationPosition := some targetPos,
            lastPosition := some simPos,
            currentTarget := some TargetType.pickup,
            currentDeliveryIndex := some (cdi driver + 1),
            heading := some heading,
            deliveries :=
              markStatus driver.deliveries (cdi driver) DeliveryStatus.delivered }
        else
          { driver with
            simulationPosition := some targetPos,
            lastPosition := some simPos,
            isMoving := false,
            currentTarget := none,
            currentDeliveryIndex := none,
            heading := some heading,
            deliveries :=
              markStatus driver.deliveries (cdi driver) DeliveryStatus.delivered }
    else
      { driver with
        simulationPosition := some newPos,
        lastPosition := some simPos,
        heading := some heading }

/-- The per-driver body of `updateDriverPositions`, one 100 ms tick: idle
drivers (not moving, no simulated position, or no deliveries) are returned
unchanged; a driver with a non-empty active route and a cursor either
transitions at the route's end or moves along the route; otherwise the
straight-line fallback movement applies.  The asynchronous `setDrivers`
updates of the arrival branch are collapsed into the returned driver, with
the pending route request's outcome supplied by `calcRoute`. -/
noncomputable def driverTick (calcRoute : CalcRoute) (simulationSpeed : ℝ)
    (driver : Driver) : Driver :=
  match driver.isMoving, driver.simulationPosition with
  | true, some simPos =>
    if driver.deliveries.isEmpty then driver
    else
      match driver.activeRoute, driver.currentRouteIndex with
      | some route, some currentRouteIndex =>
        if route.isEmpty then fallbackMove simulationSpeed driver simPos
        else if route.length ≤ currentRouteIndex then
          legTransition calcRoute driver
        else moveAlongRoute simulationSpeed driver simPos route currentRouteIndex
      | _, _ => fallbackMove simulationSpeed driver simPos
  | _, _ => driver

/-! ### Leg ordering -/

theorem markStatus_length (l : List Delivery) (i : ℕ) (st : DeliveryStatus) :
    (markStatus l i st).length = l.length := by
  induction l generalizing i with
  | nil => rfl
  | cons del rest ih =>
    cases i with
    | zero => rfl
    | succ i => simpa [markStatus] using ih i

theorem markStatus_get? (l : List Delivery) (i j : ℕ) (st : DeliveryStatus) :
    (markStatus l i st).get? j =
      if j = i then (l.get? j).map (fun del => { del with status := st })
      else l.get? j := by
  induction l generalizing i j with
  | nil => simp [markStatus]
  | cons del rest ih =>
    cases i with
    | zero =>
      cases j with
      | zero => simp [markStatus]
      | succ j => simp [markStatus]
    | succ i =>
      cases j with
      | zero => simp [markStatus]
      | succ j => simpa [markStatus, Nat.succ_ne_zero] using ih i j

/-- `pending < picked_up < delivered`. -/
def statusRank : DeliveryStatus → ℕ
  | DeliveryStatus.pending => 0
  | DeliveryStatus.picked_up => 1
  | DeliveryStatus.delivered => 2

/-- The leg-ordering invariant of a simulated driver: while it is moving,
the current delivery index is in bounds, every order before it is
delivered, every order after it is pending, and the current order's status
matches the current target — `pending` while heading to its pickup,
`picked_up` while heading to its delivery. -/
def LegInvariant (d : Driver) : Prop :=
  d.isMoving = true →
    (cdi d < d.deliveries.length
    ∧ (∀ i del, d.deliveries.get? i = some del →
        (i < cdi d → del.status = DeliveryStatus.delivered)
        ∧ (cdi d < i → del.status = DeliveryStatus.pending))
    ∧ (∃ del, d.deliveries.get? (cdi d) = some del ∧
        ((d.currentTarget = some TargetType.pickup
            ∧ del.status = DeliveryStatus.pending)
         ∨ (d.currentTarget = some TargetType.delivery
            ∧ del.status = DeliveryStatus.picked_up))))

/-- What one tick outcome `d'` of driver `d` must satisfy for leg ordering:
the invariant is preserved, the delivery list keeps its length, statuses
never regress (and only the current order's entry can change, `delivered`
only being entered from `picked_up`), and the current delivery index
advances by at most one while the driver keeps moving. -/
def TickOk (d d' : Driver) : Prop :=
  (LegInvariant d → LegInvariant d')
  ∧ d'.deliveries.length = d.deliveries.length
  ∧ (LegInvariant d → ∀ i del del', d.deliveries.get? i = some del →
      d'.deliveries.get? i = some del' →
      statusRank del.status ≤ statusRank del'.status
      ∧ (del' ≠ del → i = cdi d)
      ∧ (del'.status = DeliveryStatus.delivered →
          del.status ≠ DeliveryStatus.pending))
  ∧ (d'.isMoving = true → cdi d' = cdi d ∨ cdi d' = cdi d + 1)

/-- A step that leaves the moving flag, current index, current target and
delivery list unchanged satisfies `TickOk`. -/
theorem TickOk_of_frame (d d' : Driver)
    (h1 : d'.isMoving = d.isMoving)
    (h2 : d'.currentDeliveryIndex = d.currentDeliveryIndex)
    (h3 : d'.currentTarget = d.currentTarget)
    (h4 : d'.deliveries = d.deliveries) : TickOk d d' := by
  have hcdi : cdi d' = cdi d := by unfold cdi; rw [h2]
  refine ⟨?_, by rw [h4], ?_, fun _ => Or.inl hcdi⟩
  · intro hInv hmov
    rw [h1] at hmov
    obtain ⟨hb, hall, hcur⟩ := hInv hmov
    exact ⟨by rw [hcdi, h4]; exact hb,
      by rw [hcdi, h4]; exact hall,
      by rw [hcdi, h4, h3]; exact hcur⟩
  · intro _ i del del' hdel hdel'
    rw [h4, hdel] at hdel'
    cases hdel'
    exact ⟨le_rfl, fun hne => absurd rfl hne,
      fun hdv => by rw [hdv]; intro hc; cases hc⟩

/-- Invariant utility: while moving toward a pickup, the current order is
pending; while moving toward a delivery, it is picked up. -/
theorem LegInvariant_current_status (d : Driver) (hInv : LegInvariant d)
    (hmov : d.isMoving = true) (del : Delivery)
    (hdel : d.deliveries.get? (cdi d) = some del) :
    (d.currentTarget = some TargetType.pickup
      ∧ del.status = DeliveryStatus.pending)
    ∨ (d.currentTarget = some TargetType.delivery
      ∧ del.status = DeliveryStatus.picked_up) := by
  obtain ⟨-, -, del0, hdel0, hcur⟩ := hInv hmov
  rw [hdel] at hdel0
  cases hdel0
  exact hcur

/-- A pickup-arrival step (`status := picked_up` at the current index,
target flips to the delivery, index and moving flag kept) satisfies
`TickOk`. -/
theorem TickOk_pickup (d d' : Driver)
    (hm : d'.isMoving = d.isMoving)
    (hcdi : d'.currentDeliveryIndex = d.currentDeliveryIndex)
    (htar' : d'.currentTarget = some TargetType.delivery)
    (hdels : d'.deliveries =
      markStatus d.deliveries (cdi d) DeliveryStatus.picked_up)
    (htar : d.currentTarget = some TargetType.pickup)
    (hmovd : d.isMoving = true) : TickOk d d' := by
  have hcdi' : cdi d' = cdi d := by unfold cdi; rw [hcdi]
  have hpend : LegInvariant d → d.isMoving = true →
      ∀ del, d.deliveries.get? (cdi d) = some del →
        del.status = DeliveryStatus.pending := by
    intro hInv hmov del hdel
    rcases LegInvariant_current_status d hInv hmov del hdel with h | h
    · exact h.2
    · rw [htar] at h; cases h.1
  refine ⟨?_, by rw [hdels, markStatus_length], ?_, fun _ => Or.inl hcdi'⟩
  · intro hInv hmov'
    have hmov : d.isMoving = true := by rw [← hm]; exact hmov'
    obtain ⟨hb, hall, del0, hdel0, -⟩ := hInv hmov
    refine ⟨by rw [hcdi', hdels, markStatus_length]; exact hb, ?_, ?_⟩
    · intro i del hdel
      rw [hdels, markStatus_get?] at hdel
      rw [hcdi']
      by_cases hi : i = cdi d
      · subst hi
        exact ⟨fun hc => absurd hc (lt_irrefl _),
          fun hc => absurd hc (lt_irrefl _)⟩
      · rw [if_neg hi] at hdel
        exact hall i del hdel
    · refine ⟨{ del0 with status := DeliveryStatus.picked_up }, ?_, ?_⟩
      · rw [hcdi', hdels, markStatus_get?, if_pos rfl, hdel0]
        rfl
      · exact Or.inr ⟨htar', rfl⟩
  · intro hInv i del del' hdel hdel'
    rw [hdels, markStatus_get?] at hdel'
    by_cases hi : i = cdi d
    · subst hi
      rw [if_pos rfl, hdel] at hdel'
      cases hdel'
      constructor
      · rw [hpend hInv hmovd del hdel]
        exact Nat.zero_le _
      · exact ⟨fun _ => rfl, by intro hc; cases hc⟩
    · rw [if_neg hi, hdel] at hdel'
      cases hdel'
      exact ⟨le_rfl, fun hne => absurd rfl hne,
        fun hdv => by rw [hdv]; intro hc; cases hc⟩

/-- Invariant utility: while moving, a target other than the pickup means
the current order is picked up (the invariant pins the target to one of the
two leg kinds). -/
theorem LegInvariant_picked (d : Driver) (hInv : LegInvariant d)
    (hmovd : d.isMoving = true) (htar : d.currentTarget ≠ some TargetType.pickup) :
    ∀ del, d.deliveries.get? (cdi d) = some del →
      del.status = DeliveryStatus.picked_up := by
  intro del hdel
  rcases LegInvariant_current_status d hInv hmovd del hdel with h | h
  · exact absurd h.1 htar
  · exact h.2

/-- The status-step clause of `TickOk` for a delivered-marking step. -/
theorem statusClause_delivered (d : Driver) (dels' : List Delivery)
    (hdels : dels' = markStatus d.deliveries (cdi d) DeliveryStatus.delivered)
    (htar : d.currentTarget ≠ some TargetType.pickup)
    (hmovd : d.isMoving = true) (hInv : LegInvariant d) :
    ∀ i del del', d.deliveries.get? i = some del →
      dels'.get? i = some del' →
      statusRank del.status ≤ statusRank del'.status
      ∧ (del' ≠ del → i = cdi d)
      ∧ (del'.status = DeliveryStatus.delivered →
          del.status ≠ DeliveryStatus.pending) := by
  intro i del del' hdel hdel'
  rw [hdels, markStatus_get?] at hdel'
  by_cases hi : i = cdi d
  · subst hi
    rw [if_pos rfl, hdel] at hdel'
    cases hdel'
    have hst := LegInvariant_picked d hInv hmovd htar del hdel
    refine ⟨?_, fun _ => rfl, fun _ => ?_⟩
    · rw [hst]
      show statusRank DeliveryStatus.picked_up ≤
        statusRank DeliveryStatus.delivered
      decide
    · rw [hst]
      intro hc
      cases hc
  · rw [if_neg hi, hdel] at hdel'
    cases hdel'
    exact ⟨le_rfl, fun hne => absurd rfl hne,
      fun hdv => by rw [hdv]; intro hc; cases hc⟩

/-- A delivery-arrival step with a further order pending (`status :=
delivered` at the current index, index advances by one, target flips to the
next pickup) satisfies `TickOk`. -/
theorem TickOk_delivered_more (d d' : Driver)
    (_hm : d'.isMoving = d.isMoving)
    (hcdi : d'.currentDeliveryIndex = some (cdi d + 1))
    (htar' : d'.currentTarget = some TargetType.pickup)
    (hdels : d'.deliveries =
      markStatus d.deliveries (cdi d) DeliveryStatus.delivered)
    (htar : d.currentTarget ≠ some TargetType.pickup)
    (hmovd : d.isMoving = true)
    (hlen : cdi d + 1 < d.deliveries.length) : TickOk d d' := by
  have hcdi' : cdi d' = cdi d + 1 := by unfold cdi; rw [hcdi]; rfl
  refine ⟨?_, by rw [hdels, markStatus_length],
    statusClause_delivered d d'.deliveries hdels htar hmovd,
    fun _ => Or.inr hcdi'⟩
  intro hInv _
  obtain ⟨hb, hall, del0, hdel0, hcur⟩ := hInv hmovd
  refine ⟨by rw [hcdi', hdels, markStatus_length]; exact hlen, ?_, ?_⟩
  · intro i del hdel
    rw [hdels, markStatus_get?] at hdel
    rw [hcdi']
    by_cases hi : i = cdi d
    · subst hi
      rw [if_pos rfl] at hdel
      obtain ⟨a, -, hfa⟩ := Option.map_eq_some'.mp hdel
      exact ⟨fun _ => by rw [← hfa], fun hgt => absurd hgt (by omega)⟩
    · rw [if_neg hi] at hdel
      have hprev := hall i del hdel
      exact ⟨fun hlt => hprev.1 (by omega), fun hgt => hprev.2 (by omega)⟩
  · have hex : ∃ del1, d.deliveries.get? (cdi d + 1) = some del1 := by
      cases hq : d.deliveries.get? (cdi d + 1) with
      | none => exact absurd (List.get?_eq_none.mp hq) (by omega)
      | some del1 => exact ⟨del1, rfl⟩
    obtain ⟨del1, hdel1⟩ := hex
    refine ⟨del1, ?_, Or.inl ⟨htar', (hall _ _ hdel1).2 (by omega)⟩⟩
    rw [hcdi', hdels, markStatus_get?, if_neg (by omega), hdel1]

/-- The final delivery-arrival step (`status := delivered` at the current
index, motion stops) satisfies `TickOk`. -/
theorem TickOk_delivered_final (d d' : Driver)
    (hm : d'.isMoving = false)
    (hdels : d'.deliveries =
      markStatus d.deliveries (cdi d) DeliveryStatus.delivered)
    (htar : d.currentTarget ≠ some TargetType.pickup)
    (hmovd : d.isMoving = true) : TickOk d d' := by
  refine ⟨?_, by rw [hdels, markStatus_length],
    statusClause_delivered d d'.deliveries hdels htar hmovd, ?_⟩
  · intro _ hmov'
    rw [hm] at hmov'
    cases hmov'
  · intro hmov'
    rw [hm] at hmov'
    cases hmov'

/-- Every arrival transition satisfies `TickOk`. -/
theorem TickOk_legTransition (calcRoute : CalcRoute) (d : Driver)
    (hmovd : d.isMoving = true) : TickOk d (legTransition calcRoute d) := by
  unfold legTransition
  cases hdel : d.deliveries.get? (cdi d) with
  | none => exact TickOk_of_frame d d rfl rfl rfl rfl
  | some currentDelivery =>
    simp only []
    by_cases htar : d.currentTarget = some TargetType.pickup
    · rw [if_pos htar]
      cases hcr : calcRoute (pickupPos currentDelivery)
          (deliveryPos currentDelivery) with
      | none => exact TickOk_of_frame d d rfl rfl rfl rfl
      | some routeResult =>
        exact TickOk_pickup d _ rfl rfl rfl rfl htar hmovd
    · rw [if_neg htar]
      by_cases hlen : cdi d + 1 < d.deliveries.length
      · rw [if_pos hlen]
        cases hnext : d.deliveries.get? (cdi d + 1) with
        | none => exact TickOk_of_frame d d rfl rfl rfl rfl
        | some nextDelivery =>
          simp only []
          cases hcr : calcRoute (deliveryPos currentDelivery)
              (pickupPos nextDelivery) with
          | none => exact TickOk_of_frame d d rfl rfl rfl rfl
          | some routeResult =>
            exact TickOk_delivered_more d _ rfl rfl rfl rfl htar hmovd hlen
      · rw [if_neg hlen]
        exact TickOk_delivered_final d _ rfl rfl htar hmovd

/-- Every straight-line fallback step satisfies `TickOk`. -/
theorem TickOk_fallbackMove (simulationSpeed : ℝ) (d : Driver) (simPos : Pos)
    (hmovd : d.isMoving = true) :
    TickOk d (fallbackMove simulationSpeed d simPos) := by
  unfold fallbackMove
  cases hdel : d.deliveries.get? (cdi d) with
  | none => exact TickOk_of_frame d d rfl rfl rfl rfl
  | some currentDelivery =>
    simp only []
    by_cases htar : d.currentTarget = some TargetType.pickup
    · rw [if_pos htar]
      split_ifs with hdist
      · exact TickOk_pickup d _ rfl rfl rfl rfl htar hmovd
      · exact TickOk_of_frame d d rfl rfl rfl rfl
    · rw [if_neg htar]
      split_ifs with hdist hlen
      · exact TickOk_delivered_more d _ rfl rfl rfl rfl htar hmovd hlen
      · exact TickOk_delivered_final d _ rfl rfl htar hmovd
      · exact TickOk_of_frame d d rfl rfl rfl rfl

/-- The field-projection facts of a movement step along the route. -/
theorem moveAlongRoute_frame (simulationSpeed : ℝ) (d : Driver) (simPos : Pos)
    (route : List Pos) (idx : ℕ) :
    (moveAlongRoute simulationSpeed d simPos route idx).isMoving = d.isMoving
    ∧ (moveAlongRoute simulationSpeed d simPos route idx).currentDeliveryIndex
      = d.currentDeliveryIndex
    ∧ (moveAlongRoute simulationSpeed d simPos route idx).currentTarget
      = d.currentTarget
    ∧ (moveAlongRoute simulationSpeed d simPos route idx).deliveries
      = d.deliveries := by
  simp only [moveAlongRoute]
  split_ifs <;> exact ⟨rfl, rfl, rfl, rfl⟩

/-- Every tick of `updateDriverPositions` satisfies `TickOk`. -/
theorem TickOk_driverTick (calcRoute : CalcRoute) (simulationSpeed : ℝ)
    (d : Driver) : TickOk d (driverTick calcRoute simulationSpeed d) := by
  unfold driverTick
  cases hmov : d.isMoving with
  | false => exact TickOk_of_frame d d rfl rfl rfl rfl
  | true =>
    cases hpos : d.simulationPosition with
    | none => exact TickOk_of_frame d d rfl rfl rfl rfl
    | some simPos =>
      simp only []
      split_ifs with hempty
      · exact TickOk_of_frame d d rfl rfl rfl rfl
      · cases hroute : d.activeRoute with
        | none => exact TickOk_fallbackMove simulationSpeed d simPos hmov
        | some route =>
          cases hidx : d.currentRouteIndex with
          | none => exact TickOk_fallbackMove simulationSpeed d simPos hmov
          | some idx =>
            simp only []
            split_ifs with hrne hend
            · exact TickOk_fallbackMove simulationSpeed d simPos hmov
            · exact TickOk_legTransition calcRoute d hmov
            · obtain ⟨f1, f2, f3, f4⟩ :=
                moveAlongRoute_frame simulationSpeed d simPos route idx
              exact TickOk_of_frame d _ f1 f2 f3 f4

/-- C7: leg ordering.  Under the leg invariant (orders before the current
index delivered, orders after it pending, the current order pending while
heading to its pickup and picked up while heading to its delivery), one
simulation tick preserves the invariant, keeps the delivery list's length,
never regresses any order's status, changes at most the current order's
entry (no skipping, no reordering), enters `delivered` only from
`picked_up` — so an order's pickup is consumed strictly before its
delivery, never the reverse — and advances the current delivery index by at
most one while the driver keeps moving. -/
theorem leg_ordering (calcRoute : CalcRoute) (simulationSpeed : ℝ)
    (d : Driver) (hInv : LegInvariant d) :
    LegInvariant (driverTick calcRoute simulationSpeed d)
    ∧ (driverTick calcRoute simulationSpeed d).deliveries.length =
      d.deliveries.length
    ∧ (∀ i del del', d.deliveries.get? i = some del →
        (driverTick calcRoute simulationSpeed d).deliveries.get? i = some del' →
        statusRank del.status ≤ statusRank del'.status
        ∧ (del' ≠ del → i = cdi d)
        ∧ (del'.status = DeliveryStatus.delivered →
            del.status ≠ DeliveryStatus.pending))
    ∧ ((driverTick calcRoute simulationSpeed d).isMoving = true →
        cdi (driverTick calcRoute simulationSpeed d) = cdi d
        ∨ cdi (driverTick calcRoute simulationSpeed d) = cdi d + 1) := by
  obtain ⟨h1, h2, h3, h4⟩ := TickOk_driverTick calcRoute simulationSpeed d
  exact ⟨h1 hInv, h2, h3 hInv, h4⟩

/-- The order of the C7 witness. -/
def delC7 : Delivery := Delivery.mk 3 3 4 4 DeliveryStatus.pending

/-- The C7 witness driver, one tick away from its pickup arrival. -/
def drvC7 : Driver :=
  { id := "D002", latitude := 0, longitude := 0, isMoving := true,
    simulationPosition := some (3, 3),
    currentTarget := some TargetType.pickup,
    currentDeliveryIndex := some 0, activeRoute := some [(3, 3)],
    currentRouteIndex := some 1, speed := some 50,
    deliveries := [delC7] }

/-- The routing stub of the C7 witness. -/
def calcRouteC7 : CalcRoute :=
  fun _ _ => some (ApiRouteResult.mk (some [(4, 4)]))

/-- Witness for C7 at a concrete driver arriving at its pickup. -/
theorem leg_ordering_witness :
    LegInvariant drvC7
    ∧ (driverTick calcRouteC7 100 drvC7).deliveries.length =
      drvC7.deliveries.length
    ∧ ((driverTick calcRouteC7 100 drvC7).isMoving = true →
        cdi (driverTick calcRouteC7 100 drvC7) = cdi drvC7
        ∨ cdi (driverTick calcRouteC7 100 drvC7) = cdi drvC7 + 1)
    ∧ LegInvariant (driverTick calcRouteC7 100 drvC7) := by
  have hInv : LegInvariant drvC7 := by
    intro _
    refine ⟨?_, ?_, delC7, rfl, Or.inl ⟨rfl, rfl⟩⟩
    · show (0 : ℕ) < 1
      decide
    · intro i del hdel
      cases i with
      | zero =>
        exact ⟨fun h => absurd h (Nat.not_lt_zero 0),
          fun h => absurd h (lt_irrefl 0)⟩
      | succ i => exact Option.noConfusion hdel
  obtain ⟨h1, h2, h3, h4⟩ := leg_ordering calcRouteC7 100 drvC7 hInv
  exact ⟨hInv, h2, h4, h1⟩

/-- C10: route-cursor advance threshold.  In the movement branch of a tick
(a non-empty active route whose cursor is in bounds), if the interpolated
position comes within 0.01 km of the current target vertex, the position is
set exactly to that vertex and the cursor advances by exactly one;
otherwise the cursor is unchanged and the interpolated position is kept —
so the cursor moves by at most one per tick, and every advance leaves the
position exactly on a vertex of the route (a vertex the interpolated
position need not have reached exactly). -/
theorem route_cursor_advance (calcRoute : CalcRoute) (simulationSpeed : ℝ)
    (d : Driver) (simPos : Pos) (route : List Pos) (idx : ℕ)
    (hmov : d.isMoving = true) (hpos : d.simulationPosition = some simPos)
    (hne : d.deliveries.isEmpty = false)
    (hroute : d.activeRoute = some route)
    (hidx : d.currentRouteIndex = some idx)
    (hrne : route.isEmpty = false) (hlt : idx < route.length) :
    (calculateDistance
        (moveTowardsTarget simPos (route.getD idx (0, 0))
          (speedOf simulationSpeed d) 100) (route.getD idx (0, 0)) < 0.01 →
      (driverTick calcRoute simulationSpeed d).simulationPosition =
        some (route.getD idx (0, 0))
      ∧ (driverTick calcRoute simulationSpeed d).currentRouteIndex =
        some (idx + 1))
    ∧ (¬ calculateDistance
        (moveTowardsTarget simPos (route.getD idx (0, 0))
          (speedOf simulationSpeed d) 100) (route.getD idx (0, 0)) < 0.01 →
      (driverTick calcRoute simulationSpeed d).currentRouteIndex = some idx
      ∧ (driverTick calcRoute simulationSpeed d).simulationPosition =
        some (moveTowardsTarget simPos (route.getD idx (0, 0))
          (speedOf simulationSpeed d) 100))
    ∧ route.getD idx (0, 0) ∈ route := by
  have htick : driverTick calcRoute simulationSpeed d =
      moveAlongRoute simulationSpeed d simPos route idx := by
    unfold driverTick
    rw [hmov, hpos]
    simp only []
    rw [hne]
    simp only [Bool.false_eq_true, if_false]
    rw [hroute, hidx]
    simp only []
    rw [hrne]
    simp only [Bool.false_eq_true, if_false]
    rw [if_neg (not_le.mpr hlt)]
  rw [htick]
  simp only [moveAlongRoute]
  refine ⟨?_, ?_, ?_⟩
  · intro hdist
    rw [if_pos hdist]
    exact ⟨rfl, rfl⟩
  · intro hdist
    rw [if_neg hdist]
    exact ⟨hidx, rfl⟩
  · rw [List.getD_eq_getElem route (0, 0) hlt]
    exact List.getElem_mem hlt

theorem sin_small_pos : 0 < Real.sin (Real.pi / 7200000) := by
  apply Real.sin_pos_of_pos_of_lt_pi
  · positivity
  · nlinarith [Real.pi_pos]

theorem cos_small_pos : 0 < Real.cos (Real.pi / 7200000) := by
  apply Real.cos_pos_of_mem_Ioo
  constructor
  · nlinarith [Real.pi_pos]
  · nlinarith [Real.pi_pos]

/-- The haversine distance between `(0, 0)` and `(0, 1/20000)` (a
5·10⁻⁵-degree step along the equator, about 5.6 m). -/
theorem calculateDistance_small :
    calculateDistance (0, 0) (0, 1/20000) = 6371 * (Real.pi / 3600000) := by
  simp only [calculateDistance]
  norm_num
  rw [show (1:ℝ)/20000 * Real.pi / 180 / 2 = Real.pi / 7200000 from by ring]
  rw [Real.sqrt_mul_self sin_small_pos.le]
  rw [show (1:ℝ) - Real.sin (Real.pi / 7200000) * Real.sin (Real.pi / 7200000) =
    Real.cos (Real.pi / 7200000) * Real.cos (Real.pi / 7200000) from by
    nlinarith [Real.sin_sq_add_cos_sq (Real.pi / 7200000)]]
  rw [Real.sqrt_mul_self cos_small_pos.le]
  rw [atan2, if_pos cos_small_pos, ← Real.tan_eq_sin_div_cos, Real.arctan_tan]
  · ring
  · nlinarith [Real.pi_pos]
  · nlinarith [Real.pi_pos]

/-- The order of the C10 witness. -/
def delC10 : Delivery := Delivery.mk 9 9 9 9 DeliveryStatus.pending

/-- The C10 witness driver: standing at the origin, with the current route
vertex about 5.6 m away — within the 10 m consumption threshold but not
reached — and speed 0, so the interpolated position does not move. -/
noncomputable def drvC10 : Driver :=
  { id := "D003", latitude := 0, longitude := 0, isMoving := true,
    simulationPosition := some (0, 0),
    currentTarget := some TargetType.pickup,
    currentDeliveryIndex := some 0,
    activeRoute := some [((0 : ℝ), 1/20000)],
    currentRouteIndex := some 0, speed := none,
    deliveries := [delC10] }

/-- A routing stub whose every request fails (never consulted here). -/
def calcRouteNone : CalcRoute := fun _ _ => none

/-- Witness for C10: a vertex within 10 m is consumed without being exactly
reached — the position snaps onto the vertex and the cursor advances by
exactly one. -/
theorem route_cursor_advance_witness :
    drvC10.isMoving = true
    ∧ drvC10.currentRouteIndex = some 0
    ∧ moveTowardsTarget (0, 0) ((0 : ℝ), 1/20000) (speedOf 0 drvC10) 100 = (0, 0)
    ∧ ((0 : ℝ), (0 : ℝ)) ≠ (((0 : ℝ), 1/20000) : Pos)
    ∧ calculateDistance (0, 0) ((0 : ℝ), 1/20000) < 0.01
    ∧ (driverTick calcRouteNone 0 drvC10).simulationPosition =
        some ((0 : ℝ), 1/20000)
    ∧ (driverTick calcRouteNone 0 drvC10).currentRouteIndex = some 1 := by
  have hsp : speedOf 0 drvC10 = 0 := rfl
  have hmove : moveTowardsTarget (0, 0) ((0 : ℝ), 1/20000)
      (speedOf 0 drvC10) 100 = (0, 0) := by
    rw [hsp]
    simp only [moveTowardsTarget]
    rw [calculateDistance_small]
    rw [if_neg (by push_neg; norm_num; positivity)]
    norm_num
  have hdistlt : calculateDistance (0, 0) ((0 : ℝ), 1/20000) < 0.01 := by
    rw [calculateDistance_small]
    nlinarith [Real.pi_lt_d2]
  obtain ⟨himp1, -, -⟩ := route_cursor_advance calcRouteNone 0 drvC10 (0, 0)
    [((0 : ℝ), 1/20000)] 0 rfl rfl rfl rfl rfl rfl (by decide)
  have hcond : calculateDistance
      (moveTowardsTarget (0, 0) (([((0 : ℝ), 1/20000)]).getD 0 (0, 0))
        (speedOf 0 drvC10) 100) (([((0 : ℝ), 1/20000)]).getD 0 (0, 0)) < 0.01 := by
    show calculateDistance
      (moveTowardsTarget (0, 0) ((0 : ℝ), 1/20000) (speedOf 0 drvC10) 100)
      ((0 : ℝ), 1/20000) < 0.01
    rw [hmove]
    exact hdistlt
  obtain ⟨hres1, hres2⟩ := himp1 hcond
  refine ⟨rfl, rfl, hmove, ?_, hdistlt, hres1, hres2⟩
  intro hcontra
  have h2 := congrArg Prod.snd hcontra
  simp only [] at h2
  norm_num at h2

end Frontend
